import Mathlib

/-!
Verification development for the gst-siddecfp element
(`src/gstsiddecfp.cpp`, `src/gstsiddecfp.h`).

The element's pure logic is shallowly embedded here:

* `gst_siddecfp_src_convert` — the byte / sample-frame / time unit
  converter (source lines 508–577), modelled on non-negative 64-bit
  values as `Nat` (the element only feeds it the unsigned running byte
  counter `total_bytes`);
* `gst_siddecfp_chain` — the input accumulator (lines 479–506);
* `play_iter` / `play_run` / `play_loop` / `play_session` — the
  production loop (lines 309–384): buffer stamping, position-counter
  advance, and the pause / end-of-stream control flow;
* `siddecfp_negotiate` and `start_play_tune` — format negotiation and
  the engine-session start sequence (lines 259–307 and 386–452), with
  the external engine, builder and downstream caps modelled as an
  explicit environment of call outcomes;
* `gst_siddecfp_set_property` / `gst_siddecfp_get_property` — the
  property surface (lines 630–706).
-/

namespace GstSidDecFp

/-- GStreamer formats relevant to the element.  `default` is
sample-frames, `bytes` raw bytes, `time` nanoseconds; the remaining
constructors stand for the unit kinds the converter does not support. -/
inductive GstFormat where
  | undefined
  | default
  | bytes
  | time
  | buffers
  | percent
deriving DecidableEq

/-- GST_SECOND: one second in GStreamer time units (nanoseconds). -/
def GST_SECOND : Nat := 1000000000

/-- gst_util_uint64_scale_int val num denom = val * num / denom with a
wide intermediate, floor division. -/
def gst_util_uint64_scale_int (val num denom : Nat) : Nat :=
  val * num / denom

/-- Channel count fixed by negotiation: `config.playback == sid2_stereo`
gives 2 channels, otherwise 1 (line 523 computes the stride from it). -/
def channelCount (stereo : Bool) : Nat :=
  if stereo then 2 else 1

/-- bytes_per_sample = 2 * (playback == sid2_stereo ? 2 : 1), line 523. -/
def bytesPerSample (stereo : Bool) : Nat :=
  2 * channelCount stereo

/-- Embedding of `gst_siddecfp_src_convert` (lines 508–577).  The pad
argument is replaced by the two pieces of element state the function
reads: whether playback is stereo and the negotiated frequency.  The
out-parameter becomes an `Option` result: `none` models returning FALSE
with the destination value unset. -/
def gst_siddecfp_src_convert (stereo : Bool) (frequency : Nat)
    (src_format dest_format : GstFormat) (src_value : Nat) : Option Nat :=
  if src_format = dest_format then
    some src_value
  else
    let bytes_per_sample := bytesPerSample stereo
    match src_format, dest_format with
    | .bytes, .default =>
        if bytes_per_sample = 0 then none
        else some (src_value / bytes_per_sample)
    | .bytes, .time =>
        let byterate := bytes_per_sample * frequency
        if byterate = 0 then none
        else some (gst_util_uint64_scale_int src_value GST_SECOND byterate)
    | .default, .bytes =>
        some (src_value * bytes_per_sample)
    | .default, .time =>
        if frequency = 0 then none
        else some (gst_util_uint64_scale_int src_value GST_SECOND frequency)
    | .time, .bytes =>
        some (gst_util_uint64_scale_int src_value (bytes_per_sample * frequency) GST_SECOND)
    | .time, .default =>
        some (gst_util_uint64_scale_int src_value (1 * frequency) GST_SECOND)
    | _, _ => none

/-- Units the converter supports: bytes, sample-frames and time. -/
def supportedUnit : GstFormat → Bool
  | .bytes => true
  | .default => true
  | .time => true
  | _ => false

theorem channelCount_pos (stereo : Bool) : 0 < channelCount stereo := by
  cases stereo <;> simp [channelCount]

theorem bytesPerSample_pos (stereo : Bool) : 0 < bytesPerSample stereo := by
  cases stereo <;> simp [bytesPerSample, channelCount]

theorem bytesPerSample_ne_zero (stereo : Bool) : bytesPerSample stereo ≠ 0 :=
  Nat.pos_iff_ne_zero.mp (bytesPerSample_pos stereo)

theorem convert_bytes_default (stereo : Bool) (frequency x : Nat) :
    gst_siddecfp_src_convert stereo frequency .bytes .default x =
      some (x / bytesPerSample stereo) := by
  cases stereo <;>
    simp [gst_siddecfp_src_convert, bytesPerSample, channelCount]

theorem convert_default_bytes (stereo : Bool) (frequency x : Nat) :
    gst_siddecfp_src_convert stereo frequency .default .bytes x =
      some (x * bytesPerSample stereo) := by
  cases stereo <;>
    simp [gst_siddecfp_src_convert, bytesPerSample, channelCount]

theorem convert_bytes_time (stereo : Bool) (frequency x : Nat)
    (hf : 0 < frequency) :
    gst_siddecfp_src_convert stereo frequency .bytes .time x =
      some (x * GST_SECOND / (bytesPerSample stereo * frequency)) := by
  have hb : bytesPerSample stereo * frequency ≠ 0 :=
    Nat.mul_ne_zero (bytesPerSample_ne_zero stereo) (Nat.pos_iff_ne_zero.mp hf)
  simp [gst_siddecfp_src_convert, gst_util_uint64_scale_int, hb]

theorem convert_default_time (stereo : Bool) (frequency x : Nat)
    (hf : 0 < frequency) :
    gst_siddecfp_src_convert stereo frequency .default .time x =
      some (x * GST_SECOND / frequency) := by
  simp [gst_siddecfp_src_convert, gst_util_uint64_scale_int,
    Nat.pos_iff_ne_zero.mp hf]

theorem convert_time_bytes (stereo : Bool) (frequency x : Nat) :
    gst_siddecfp_src_convert stereo frequency .time .bytes x =
      some (x * (bytesPerSample stereo * frequency) / GST_SECOND) := by
  simp [gst_siddecfp_src_convert, gst_util_uint64_scale_int]

theorem convert_time_default (stereo : Bool) (frequency x : Nat) :
    gst_siddecfp_src_convert stereo frequency .time .default x =
      some (x * frequency / GST_SECOND) := by
  simp [gst_siddecfp_src_convert, gst_util_uint64_scale_int]

theorem convert_same (stereo : Bool) (frequency x : Nat) (f : GstFormat) :
    gst_siddecfp_src_convert stereo frequency f f x = some x := by
  simp [gst_siddecfp_src_convert]

theorem convert_unsupported (stereo : Bool) (frequency x : Nat)
    (f g : GstFormat) (hne : f ≠ g)
    (hun : supportedUnit f = false ∨ supportedUnit g = false) :
    gst_siddecfp_src_convert stereo frequency f g x = none := by
  cases f <;> cases g <;>
    simp_all [gst_siddecfp_src_convert, supportedUnit]

/-- C2: the unit converter is the identity on equal units; on the six
distinct pairs among bytes, sample-frames and time it computes the exact
scaled-integer conversions the source writes (`bytes = frames * stride`,
`time = value * GST_SECOND / divisor` and their inverses, floor
division); it returns `none` (FALSE / unsupported) on every distinct
pair involving a unit outside those three, and on the two conversions
that would divide by the rate when the rate is zero; the byte stride
`2 * channelCount` is never zero, so its division-by-zero guard never
fires. -/
theorem c2_convert_cases (stereo : Bool) (frequency x : Nat) :
    (∀ f : GstFormat,
      gst_siddecfp_src_convert stereo frequency f f x = some x) ∧
    (gst_siddecfp_src_convert stereo frequency .bytes .default x =
      some (x / (2 * channelCount stereo))) ∧
    (gst_siddecfp_src_convert stereo frequency .default .bytes x =
      some (x * (2 * channelCount stereo))) ∧
    (0 < frequency →
      gst_siddecfp_src_convert stereo frequency .bytes .time x =
        some (x * GST_SECOND / (2 * channelCount stereo * frequency))) ∧
    (0 < frequency →
      gst_siddecfp_src_convert stereo frequency .default .time x =
        some (x * GST_SECOND / frequency)) ∧
    (gst_siddecfp_src_convert stereo frequency .time .bytes x =
      some (x * (2 * channelCount stereo * frequency) / GST_SECOND)) ∧
    (gst_siddecfp_src_convert stereo frequency .time .default x =
      some (x * frequency / GST_SECOND)) ∧
    (frequency = 0 →
      gst_siddecfp_src_convert stereo frequency .bytes .time x = none ∧
      gst_siddecfp_src_convert stereo frequency .default .time x = none) ∧
    (∀ f g : GstFormat, f ≠ g →
      supportedUnit f = false ∨ supportedUnit g = false →
      gst_siddecfp_src_convert stereo frequency f g x = none) ∧
    2 * channelCount stereo ≠ 0 := by
  refine ⟨convert_same stereo frequency x, ?_, ?_, ?_, ?_, ?_, ?_, ?_, ?_, ?_⟩
  · simpa [bytesPerSample] using convert_bytes_default stereo frequency x
  · simpa [bytesPerSample] using convert_default_bytes stereo frequency x
  · intro hf
    simpa [bytesPerSample] using convert_bytes_time stereo frequency x hf
  · intro hf
    exact convert_default_time stereo frequency x hf
  · simpa [bytesPerSample] using convert_time_bytes stereo frequency x
  · exact convert_time_default stereo frequency x
  · intro hf
    subst hf
    constructor <;> simp [gst_siddecfp_src_convert]
  · exact convert_unsupported stereo frequency x
  · simpa [bytesPerSample] using bytesPerSample_ne_zero stereo

/-- C2 witness: the converter evaluated at concrete inputs (stereo,
44100 Hz and a zero rate), each hypothesis of `c2_convert_cases`
discharged concretely. -/
theorem c2_convert_cases_witness :
    gst_siddecfp_src_convert true 44100 .bytes .bytes 1000 = some 1000 ∧
    gst_siddecfp_src_convert true 44100 .bytes .default 1000 = some 250 ∧
    gst_siddecfp_src_convert true 44100 .default .bytes 1000 = some 4000 ∧
    gst_siddecfp_src_convert true 44100 .bytes .time 1000 =
      some (1000 * GST_SECOND / (2 * channelCount true * 44100)) ∧
    gst_siddecfp_src_convert true 44100 .default .time 1000 =
      some (1000 * GST_SECOND / 44100) ∧
    gst_siddecfp_src_convert true 44100 .time .bytes 1000 =
      some (1000 * (2 * channelCount true * 44100) / GST_SECOND) ∧
    gst_siddecfp_src_convert true 44100 .time .default 1000 =
      some (1000 * 44100 / GST_SECOND) ∧
    gst_siddecfp_src_convert true 0 .bytes .time 1000 = none ∧
    gst_siddecfp_src_convert true 0 .default .time 1000 = none ∧
    gst_siddecfp_src_convert true 44100 .percent .bytes 1000 = none := by
  have h := c2_convert_cases true 44100 1000
  have h0 := c2_convert_cases true 0 1000
  refine ⟨h.1 .bytes, ?_, h.2.2.1, h.2.2.2.1 (by decide),
    h.2.2.2.2.1 (by decide), h.2.2.2.2.2.1, h.2.2.2.2.2.2.1,
    (h0.2.2.2.2.2.2.2.1 rfl).1, (h0.2.2.2.2.2.2.2.1 rfl).2,
    h.2.2.2.2.2.2.2.2.1 .percent .bytes (by decide) (Or.inl rfl)⟩
  have hb := h.2.1
  simpa [channelCount] using hb

/-- Numerator of the scaled conversion the source computes for a
supported distinct unit pair: the converted value is
`x * convMult / convDiv`. -/
def convMult (stereo : Bool) (frequency : Nat) : GstFormat → GstFormat → Nat
  | .bytes, .default => 1
  | .default, .bytes => bytesPerSample stereo
  | .bytes, .time => GST_SECOND
  | .time, .bytes => bytesPerSample stereo * frequency
  | .default, .time => GST_SECOND
  | .time, .default => frequency
  | _, _ => 1

/-- Denominator of the scaled conversion, see `convMult`. -/
def convDiv (stereo : Bool) (frequency : Nat) : GstFormat → GstFormat → Nat
  | .bytes, .default => bytesPerSample stereo
  | .default, .bytes => 1
  | .bytes, .time => bytesPerSample stereo * frequency
  | .time, .bytes => GST_SECOND
  | .default, .time => frequency
  | .time, .default => GST_SECOND
  | _, _ => 1

/-- Relevant stride of a conversion: values that are multiples of it
convert with no rounding loss. -/
def convStride (stereo : Bool) (frequency : Nat) (a b : GstFormat) : Nat :=
  convDiv stereo frequency a b /
    Nat.gcd (convDiv stereo frequency a b) (convMult stereo frequency a b)

theorem convert_eq_scaled (stereo : Bool) (frequency x : Nat)
    (hf : 0 < frequency) (a b : GstFormat) (hne : a ≠ b)
    (ha : supportedUnit a = true) (hb : supportedUnit b = true) :
    gst_siddecfp_src_convert stereo frequency a b x =
      some (x * convMult stereo frequency a b / convDiv stereo frequency a b) := by
  cases a <;> cases b <;> simp_all [supportedUnit]
  · rw [convert_default_bytes]
    simp [convMult, convDiv]
  · rw [convert_default_time stereo frequency x hf]
    simp [convMult, convDiv]
  · rw [convert_bytes_default]
    simp [convMult, convDiv]
  · rw [convert_bytes_time stereo frequency x hf]
    simp [convMult, convDiv]
  · rw [convert_time_default]
    simp [convMult, convDiv]
  · rw [convert_time_bytes]
    simp [convMult, convDiv]

theorem convMult_swap (stereo : Bool) (frequency : Nat) (a b : GstFormat)
    (ha : supportedUnit a = true) (hb : supportedUnit b = true) :
    convMult stereo frequency b a = convDiv stereo frequency a b := by
  cases a <;> cases b <;> simp_all [supportedUnit, convMult, convDiv]

theorem convDiv_swap (stereo : Bool) (frequency : Nat) (a b : GstFormat)
    (ha : supportedUnit a = true) (hb : supportedUnit b = true) :
    convDiv stereo frequency b a = convMult stereo frequency a b := by
  cases a <;> cases b <;> simp_all [supportedUnit, convMult, convDiv]

theorem convMult_pos (stereo : Bool) (frequency : Nat) (hf : 0 < frequency)
    (a b : GstFormat) : 0 < convMult stereo frequency a b := by
  have hbps := bytesPerSample_pos stereo
  cases a <;> cases b <;>
    simp_all [convMult, GST_SECOND, Nat.mul_pos]

theorem convDiv_pos (stereo : Bool) (frequency : Nat) (hf : 0 < frequency)
    (a b : GstFormat) : 0 < convDiv stereo frequency a b := by
  have hbps := bytesPerSample_pos stereo
  cases a <;> cases b <;>
    simp_all [convDiv, GST_SECOND, Nat.mul_pos]

/-- Floor-division round trip: sending `x` through `x * m / d` and back
through `y * d / m` never overshoots, loses less than `(m + d) / m`, and
is lossless exactly on inputs where the first division is exact. -/
theorem scale_roundtrip (m d x : Nat) (hm : 0 < m) (hd : 0 < d) :
    x * m / d * d / m ≤ x ∧
    m * x < m * (x * m / d * d / m) + (m + d) ∧
    (d ∣ x * m → x * m / d * d / m = x) := by
  refine ⟨?_, ?_, ?_⟩
  · have h1 : x * m / d * d ≤ x * m := Nat.div_mul_le_self (x * m) d
    have h2 : x * m / d * d / m ≤ x * m / m := Nat.div_le_div_right h1
    simpa [Nat.mul_div_cancel _ hm] using h2
  · have h1 : x * m < d * (x * m / d) + d := by
      conv_lhs => rw [← Nat.div_add_mod (x * m) d]
      exact Nat.add_lt_add_left (Nat.mod_lt _ hd) _
    have h2 : x * m / d * d < m * (x * m / d * d / m) + m := by
      conv_lhs => rw [← Nat.div_add_mod (x * m / d * d) m]
      exact Nat.add_lt_add_left (Nat.mod_lt _ hm) _
    have h3 : x * m < m * (x * m / d * d / m) + m + d := by
      calc x * m < d * (x * m / d) + d := h1
      _ = x * m / d * d + d := by ring_nf
      _ < m * (x * m / d * d / m) + m + d := by omega
    calc m * x = x * m := Nat.mul_comm m x
    _ < m * (x * m / d * d / m) + m + d := h3
    _ = m * (x * m / d * d / m) + (m + d) := by omega
  · intro hdvd
    rw [Nat.div_mul_cancel hdvd, Nat.mul_div_cancel _ hm]

theorem stride_dvd_imp (m d x : Nat) (h : d / Nat.gcd d m ∣ x) : d ∣ x * m := by
  have hgd : Nat.gcd d m ∣ d := Nat.gcd_dvd_left d m
  have hgm : Nat.gcd d m ∣ m := Nat.gcd_dvd_right d m
  have hd : d = d / Nat.gcd d m * Nat.gcd d m := (Nat.div_mul_cancel hgd).symm
  calc d = d / Nat.gcd d m * Nat.gcd d m := hd
  _ ∣ x * m := mul_dvd_mul h hgm

/-- C5: for every ordered pair of distinct supported units, every rate
in [8000, 48000] and both channel layouts, converting a non-negative
value forward and back succeeds and yields the value again up to floor
rounding: the result never exceeds the input, the loss is bounded by the
conversion's scaling ratio, and the round trip is exact whenever the
input is a multiple of the conversion's relevant stride. -/
theorem c5_convert_roundtrip (stereo : Bool) (frequency : Nat)
    (a b : GstFormat) (x : Nat) (hlo : 8000 ≤ frequency)
    (_hhi : frequency ≤ 48000) (hne : a ≠ b)
    (ha : supportedUnit a = true) (hb : supportedUnit b = true) :
    ∃ y r, gst_siddecfp_src_convert stereo frequency a b x = some y ∧
      gst_siddecfp_src_convert stereo frequency b a y = some r ∧
      r ≤ x ∧
      convMult stereo frequency a b * x <
        convMult stereo frequency a b * r +
          (convMult stereo frequency a b + convDiv stereo frequency a b) ∧
      (convStride stereo frequency a b ∣ x → r = x) := by
  have hf : 0 < frequency := lt_of_lt_of_le (by norm_num) hlo
  set m := convMult stereo frequency a b with hm_def
  set d := convDiv stereo frequency a b with hd_def
  have hm : 0 < m := convMult_pos stereo frequency hf a b
  have hd : 0 < d := convDiv_pos stereo frequency hf a b
  have hfwd := convert_eq_scaled stereo frequency x hf a b hne ha hb
  have hbwd := convert_eq_scaled stereo frequency (x * m / d) hf b a
    (Ne.symm hne) hb ha
  rw [convMult_swap stereo frequency a b ha hb,
    convDiv_swap stereo frequency a b ha hb] at hbwd
  have hrt := scale_roundtrip m d x hm hd
  refine ⟨x * m / d, x * m / d * d / m, hfwd, hbwd, hrt.1, hrt.2.1, ?_⟩
  intro hstr
  exact hrt.2.2 (stride_dvd_imp m d x hstr)

/-- C5 witness: stereo at 48000 Hz, bytes to time and back on an input
that is a multiple of the byte rate, recovered exactly. -/
theorem c5_convert_roundtrip_witness :
    ∃ y r, gst_siddecfp_src_convert true 48000 .bytes .time 192000 = some y ∧
      gst_siddecfp_src_convert true 48000 .time .bytes y = some r ∧
      r ≤ 192000 ∧
      convMult true 48000 .bytes .time * 192000 <
        convMult true 48000 .bytes .time * r +
          (convMult true 48000 .bytes .time + convDiv true 48000 .bytes .time) ∧
      (convStride true 48000 .bytes .time ∣ 192000 → r = 192000) :=
  c5_convert_roundtrip true 48000 .bytes .time 192000 (by decide) (by decide)
    (by decide) rfl rfl

/-- GstFlowReturn values the element manipulates, with the enum's
integer order exposed by `toInt` (the source compares flow returns with
`<`). -/
inductive GstFlowReturn where
  | ok
  | notLinked
  | wrongState
  | unexpected
  | notNegotiated
  | error
  | notSupported
deriving DecidableEq

/-- Integer value of each GstFlowReturn constant in GStreamer 0.10. -/
def GstFlowReturn.toInt : GstFlowReturn → Int
  | .ok => 0
  | .notLinked => -1
  | .wrongState => -2
  | .unexpected => -3
  | .notNegotiated => -4
  | .error => -5
  | .notSupported => -6

/-- Accumulator state: the bytes written to `tune_buffer` so far and
the `tune_len` counter (lines 63–64 of the header; the element only ever
reads the first `tune_len` bytes of the fixed-capacity allocation). -/
structure AccState where
  tune_buffer : List Nat
  tune_len : Nat
deriving DecidableEq

/-- Embedding of `gst_siddecfp_chain` (lines 479–506): append the input
buffer unless it would exceed the capacity (`SIDTUNE_MAX_FILELEN` in the
source, an external library constant kept as a parameter here); on
overflow post an error, return GST_FLOW_ERROR and leave the state
untouched. -/
def gst_siddecfp_chain (capacity : Nat) (s : AccState) (chunk : List Nat) :
    GstFlowReturn × AccState :=
  if s.tune_len + chunk.length > capacity then
    (.error, s)
  else
    (.ok, ⟨s.tune_buffer ++ chunk, s.tune_len + chunk.length⟩)

/-- C3: an append fails (GST_FLOW_ERROR, the spec's `Overflow`) exactly
when the accumulated length plus the chunk length exceeds the capacity;
on that failure the buffer and length counter are unchanged, and on
success the chunk is appended and the length grows by exactly the chunk
length. -/
theorem c3_chain_overflow (capacity : Nat) (s : AccState) (chunk : List Nat) :
    ((gst_siddecfp_chain capacity s chunk).1 = .error ↔
      capacity < s.tune_len + chunk.length) ∧
    (capacity < s.tune_len + chunk.length →
      gst_siddecfp_chain capacity s chunk = (.error, s)) ∧
    (s.tune_len + chunk.length ≤ capacity →
      gst_siddecfp_chain capacity s chunk =
        (.ok, ⟨s.tune_buffer ++ chunk, s.tune_len + chunk.length⟩)) := by
  refine ⟨?_, ?_, ?_⟩
  · by_cases hc : capacity < s.tune_len + chunk.length
    · simp [gst_siddecfp_chain, hc]
    · simp [gst_siddecfp_chain, hc]
  · intro h
    simp [gst_siddecfp_chain, h]
  · intro h
    simp [gst_siddecfp_chain, Nat.not_lt.mpr h]

/-- C3 witness: capacity 4, two bytes already stored; a three-byte chunk
overflows and leaves the state unchanged, a two-byte chunk succeeds. -/
theorem c3_chain_overflow_witness :
    gst_siddecfp_chain 4 ⟨[1, 2], 2⟩ [3, 4, 5] = (.error, ⟨[1, 2], 2⟩) ∧
    gst_siddecfp_chain 4 ⟨[1, 2], 2⟩ [3, 4] = (.ok, ⟨[1, 2, 3, 4], 4⟩) :=
  ⟨(c3_chain_overflow 4 ⟨[1, 2], 2⟩ [3, 4, 5]).2.1 (by decide),
   (c3_chain_overflow 4 ⟨[1, 2], 2⟩ [3, 4]).2.2 (by decide)⟩

/-- Repeatedly feed chunks through `gst_siddecfp_chain`, threading the
accumulator state (the element's chain function is called once per
upstream buffer). -/
def chain_run (capacity : Nat) (s : AccState) : List (List Nat) → AccState
  | [] => s
  | c :: cs => chain_run capacity (gst_siddecfp_chain capacity s c).2 cs

/-- True when every append in the sequence returned GST_FLOW_OK. -/
def chain_run_ok (capacity : Nat) (s : AccState) : List (List Nat) → Bool
  | [] => true
  | c :: cs =>
    ((gst_siddecfp_chain capacity s c).1 == .ok) &&
      chain_run_ok capacity (gst_siddecfp_chain capacity s c).2 cs

theorem chain_run_spec (capacity : Nat) : ∀ (cs : List (List Nat)) (s : AccState),
    s.tune_len + (cs.map List.length).sum ≤ capacity →
    chain_run capacity s cs =
      ⟨s.tune_buffer ++ cs.flatten, s.tune_len + (cs.map List.length).sum⟩ ∧
    chain_run_ok capacity s cs = true := by
  intro cs
  induction cs with
  | nil =>
    intro s h
    simp [chain_run, chain_run_ok]
  | cons c cs ih =>
    intro s h
    simp only [List.map_cons, List.sum_cons] at h
    have hc : s.tune_len + c.length ≤ capacity := by omega
    have hstep : gst_siddecfp_chain capacity s c =
        (.ok, ⟨s.tune_buffer ++ c, s.tune_len + c.length⟩) := by
      simp [gst_siddecfp_chain, Nat.not_lt.mpr hc]
    have htail := ih ⟨s.tune_buffer ++ c, s.tune_len + c.length⟩ (by simp; omega)
    constructor
    · simp only [chain_run, hstep]
      rw [htail.1]
      simp [List.append_assoc]
      omega
    · simp only [chain_run_ok, hstep, htail.2]
      simp

/-- C4: starting from the freshly initialised accumulator (empty buffer,
`tune_len = 0`, line 217), feeding any sequence of chunks whose total
size fits the capacity makes every append succeed, leaves the buffer
equal to the concatenation of the chunks in call order, and leaves the
length counter equal to the sum of the chunk sizes. -/
theorem c4_chain_concat (capacity : Nat) (chunks : List (List Nat))
    (h : (chunks.map List.length).sum ≤ capacity) :
    (chain_run capacity ⟨[], 0⟩ chunks).tune_buffer = chunks.flatten ∧
    (chain_run capacity ⟨[], 0⟩ chunks).tune_len =
      (chunks.map List.length).sum ∧
    chain_run_ok capacity ⟨[], 0⟩ chunks = true := by
  have hs := chain_run_spec capacity chunks ⟨[], 0⟩ (by simpa using h)
  refine ⟨?_, ?_, hs.2⟩
  · simp [hs.1]
  · simp [hs.1]

/-- C4 witness: three chunks totalling five bytes into capacity 10 give
exactly their concatenation. -/
theorem c4_chain_concat_witness :
    (chain_run 10 ⟨[], 0⟩ [[1, 2], [3], [4, 5]]).tune_buffer =
      [1, 2, 3, 4, 5] ∧
    (chain_run 10 ⟨[], 0⟩ [[1, 2], [3], [4, 5]]).tune_len = 5 ∧
    chain_run_ok 10 ⟨[], 0⟩ [[1, 2], [3], [4, 5]] = true := by
  have h := c4_chain_concat 10 [[1, 2], [3], [4, 5]] (by decide)
  simpa using h

/-- Position annotation carried by each produced buffer: starting
sample-frame offset (GST_BUFFER_OFFSET), starting timestamp
(GST_BUFFER_TIMESTAMP), ending sample-frame offset
(GST_BUFFER_OFFSET_END) and duration (GST_BUFFER_DURATION). -/
structure OutBuffer where
  offset : Nat
  timestamp : Nat
  offset_end : Nat
  duration : Nat
deriving DecidableEq

/-- Embedding of the stamping part of one `play_loop` iteration (lines
327–351): `played` is the byte count rendered by the engine (the source
multiplies the engine's sample count by 2 at line 327).  The starting
offset and timestamp come from `total_bytes` before the advance, the
counter then grows by exactly `played`, and the ending offset, ending
timestamp and duration come from the advanced counter.  `.getD 0`
extracts the out-parameter of the convert calls, whose return value the
loop ignores. -/
def play_iter (stereo : Bool) (frequency total_bytes played : Nat) :
    OutBuffer × Nat :=
  let offset :=
    (gst_siddecfp_src_convert stereo frequency .bytes .default total_bytes).getD 0
  let time :=
    (gst_siddecfp_src_convert stereo frequency .bytes .time total_bytes).getD 0
  let total' := total_bytes + played
  let offset_end :=
    (gst_siddecfp_src_convert stereo frequency .bytes .default total').getD 0
  let value :=
    (gst_siddecfp_src_convert stereo frequency .bytes .time total').getD 0
  (⟨offset, time, offset_end, value - time⟩, total')

/-- Buffers produced by a sequence of production-loop iterations whose
rendered byte counts are `plays`, starting from byte counter `total`. -/
def play_run (stereo : Bool) (frequency : Nat) : Nat → List Nat → List OutBuffer
  | _, [] => []
  | total, p :: ps =>
    (play_iter stereo frequency total p).1 ::
      play_run stereo frequency (play_iter stereo frequency total p).2 ps

theorem play_run_length (stereo : Bool) (frequency : Nat) :
    ∀ (ps : List Nat) (total : Nat),
      (play_run stereo frequency total ps).length = ps.length := by
  intro ps
  induction ps with
  | nil => intro total; rfl
  | cons p ps ih => intro total; simp [play_run, ih]

theorem play_run_getD (stereo : Bool) (frequency : Nat) :
    ∀ (ps : List Nat) (total i : Nat), i < ps.length →
      (play_run stereo frequency total ps).getD i ⟨0, 0, 0, 0⟩ =
        (play_iter stereo frequency (total + (ps.take i).sum) (ps.getD i 0)).1 := by
  intro ps
  induction ps with
  | nil =>
    intro total i hi
    simp at hi
  | cons p ps ih =>
    intro total i hi
    cases i with
    | zero => simp [play_run]
    | succ j =>
      have hj : j < ps.length := by simpa using hi
      have h2 : (play_iter stereo frequency total p).2 = total + p := rfl
      have htail := ih (total + p) j hj
      simp only [play_run, List.getD_cons_succ, List.take_succ_cons,
        List.sum_cons, h2, htail, Nat.add_assoc]

theorem sum_take_succ_getD : ∀ (ps : List Nat) (i : Nat), i < ps.length →
    (ps.take (i + 1)).sum = (ps.take i).sum + ps.getD i 0 := by
  intro ps
  induction ps with
  | nil =>
    intro i hi
    simp at hi
  | cons p ps ih =>
    intro i hi
    cases i with
    | zero => simp
    | succ j =>
      have hj : j < ps.length := by simpa using hi
      simp only [List.take, List.sum_cons, List.getD_cons_succ, ih j hj]
      omega

theorem bytes_time_mono (stereo : Bool) (frequency : Nat)
    (hf : 0 < frequency) (x y : Nat) (hxy : x ≤ y) :
    (gst_siddecfp_src_convert stereo frequency .bytes .time x).getD 0 ≤
      (gst_siddecfp_src_convert stereo frequency .bytes .time y).getD 0 := by
  rw [convert_bytes_time stereo frequency x hf,
    convert_bytes_time stereo frequency y hf]
  exact Nat.div_le_div_right (Nat.mul_le_mul_right _ hxy)

/-- C1: each production-loop iteration stamps the buffer's starting
offset and timestamp by unit conversion from the byte counter before the
advance, advances the counter by exactly the rendered bytes, and derives
the ending offset, ending timestamp and duration from the advanced
counter with duration = new timestamp − starting timestamp; consequently
over any iteration sequence the starting timestamps are monotonically
non-decreasing and buffer `i`'s duration equals buffer `i+1`'s starting
timestamp minus buffer `i`'s. -/
theorem c1_position_tracking (stereo : Bool) (frequency total : Nat)
    (ps : List Nat) (i : Nat) (hf : 0 < frequency)
    (hi : i + 1 < (play_run stereo frequency total ps).length) :
    ((play_iter stereo frequency total (ps.getD i 0)).2 =
      total + ps.getD i 0) ∧
    (gst_siddecfp_src_convert stereo frequency .bytes .default total =
      some (play_iter stereo frequency total (ps.getD i 0)).1.offset) ∧
    (gst_siddecfp_src_convert stereo frequency .bytes .time total =
      some (play_iter stereo frequency total (ps.getD i 0)).1.timestamp) ∧
    (gst_siddecfp_src_convert stereo frequency .bytes .default
        (total + ps.getD i 0) =
      some (play_iter stereo frequency total (ps.getD i 0)).1.offset_end) ∧
    ((play_iter stereo frequency total (ps.getD i 0)).1.duration =
      (gst_siddecfp_src_convert stereo frequency .bytes .time
          (total + ps.getD i 0)).getD 0 -
        (play_iter stereo frequency total (ps.getD i 0)).1.timestamp) ∧
    (((play_run stereo frequency total ps).getD i ⟨0, 0, 0, 0⟩).timestamp ≤
      ((play_run stereo frequency total ps).getD (i + 1) ⟨0, 0, 0, 0⟩).timestamp) ∧
    (((play_run stereo frequency total ps).getD i ⟨0, 0, 0, 0⟩).duration =
      ((play_run stereo frequency total ps).getD (i + 1) ⟨0, 0, 0, 0⟩).timestamp -
        ((play_run stereo frequency total ps).getD i ⟨0, 0, 0, 0⟩).timestamp) := by
  have hlen := play_run_length stereo frequency ps total
  have hi1 : i + 1 < ps.length := by omega
  have hi0 : i < ps.length := by omega
  have hgi := play_run_getD stereo frequency ps total i hi0
  have hgi1 := play_run_getD stereo frequency ps total (i + 1) hi1
  have hsum := sum_take_succ_getD ps i hi0
  refine ⟨rfl, ?_, ?_, ?_, ?_, ?_, ?_⟩
  · rw [convert_bytes_default]
    simp [play_iter, convert_bytes_default]
  · rw [convert_bytes_time stereo frequency total hf]
    simp [play_iter, convert_bytes_time stereo frequency total hf]
  · rw [convert_bytes_default]
    simp [play_iter, convert_bytes_default]
  · simp [play_iter]
  · rw [hgi, hgi1, hsum]
    simp only [play_iter]
    have hle : total + (ps.take i).sum ≤
        total + ((ps.take i).sum + ps.getD i 0) := by omega
    have := bytes_time_mono stereo frequency hf
      (total + (ps.take i).sum)
      (total + ((ps.take i).sum + ps.getD i 0)) hle
    simpa [Nat.add_assoc] using this
  · rw [hgi, hgi1, hsum]
    simp only [play_iter]
    have : total + ((ps.take i).sum + ps.getD i 0) =
        total + (ps.take i).sum + ps.getD i 0 := by omega
    rw [this]

/-- C1 witness: stereo at 48000 Hz, three blocks of 8192, 8192 and 4096
bytes from a zero counter, checked at the first adjacent pair. -/
theorem c1_position_tracking_witness :
    ((play_iter true 48000 0 (([8192, 8192, 4096] : List Nat).getD 0 0)).2 =
      0 + ([8192, 8192, 4096] : List Nat).getD 0 0) ∧
    (gst_siddecfp_src_convert true 48000 .bytes .default 0 =
      some (play_iter true 48000 0
        (([8192, 8192, 4096] : List Nat).getD 0 0)).1.offset) ∧
    (gst_siddecfp_src_convert true 48000 .bytes .time 0 =
      some (play_iter true 48000 0
        (([8192, 8192, 4096] : List Nat).getD 0 0)).1.timestamp) ∧
    (gst_siddecfp_src_convert true 48000 .bytes .default
        (0 + ([8192, 8192, 4096] : List Nat).getD 0 0) =
      some (play_iter true 48000 0
        (([8192, 8192, 4096] : List Nat).getD 0 0)).1.offset_end) ∧
    ((play_iter true 48000 0
        (([8192, 8192, 4096] : List Nat).getD 0 0)).1.duration =
      (gst_siddecfp_src_convert true 48000 .bytes .time
          (0 + ([8192, 8192, 4096] : List Nat).getD 0 0)).getD 0 -
        (play_iter true 48000 0
          (([8192, 8192, 4096] : List Nat).getD 0 0)).1.timestamp) ∧
    (((play_run true 48000 0 [8192, 8192, 4096]).getD 0 ⟨0, 0, 0, 0⟩).timestamp ≤
      ((play_run true 48000 0 [8192, 8192, 4096]).getD 1 ⟨0, 0, 0, 0⟩).timestamp) ∧
    (((play_run true 48000 0 [8192, 8192, 4096]).getD 0 ⟨0, 0, 0, 0⟩).duration =
      ((play_run true 48000 0 [8192, 8192, 4096]).getD 1 ⟨0, 0, 0, 0⟩).timestamp -
        ((play_run true 48000 0 [8192, 8192, 4096]).getD 0 ⟨0, 0, 0, 0⟩).timestamp) :=
  c1_position_tracking true 48000 0 [8192, 8192, 4096] 0 (by decide)
    (by simp [play_run_length])

/-- Outcomes of the external calls one `play_loop` invocation makes:
the allocator's flow return (line 323), the bytes the engine rendered
(line 327, already multiplied by 2), and the downstream push's flow
return (line 353). -/
structure IterIn where
  allocRet : GstFlowReturn
  played : Nat
  pushRet : GstFlowReturn
deriving DecidableEq

/-- Observable outcome of one `play_loop` invocation: the byte counter
afterwards, whether an EOS event was pushed, whether a STREAM FAILED
error was posted, and whether the task was paused. -/
structure LoopOut where
  total : Nat
  eosPushed : Bool
  errored : Bool
  paused : Bool
deriving DecidableEq

/-- The `pause:` label of `play_loop` (lines 367–383): EOS for
GST_FLOW_UNEXPECTED; an error message plus EOS for flow returns below
GST_FLOW_UNEXPECTED or for GST_FLOW_NOT_LINKED; always pause the task. -/
def pause_path (ret : GstFlowReturn) (total : Nat) : LoopOut :=
  if ret = .unexpected then
    ⟨total, true, false, true⟩
  else if ret.toInt < GstFlowReturn.unexpected.toInt ∨ ret = .notLinked then
    ⟨total, true, true, true⟩
  else
    ⟨total, false, false, true⟩

/-- Embedding of one `play_loop` invocation's control flow (lines
309–384): failed buffer allocation pauses via `pause_path`; otherwise
the buffer is stamped and the counter advanced (`play_iter`, which runs
before the push, as in the source); a failed push pauses via
`pause_path`; a short render (`played < blocksize`) pushes one EOS and
pauses the task without error; otherwise the task continues. -/
def play_loop (stereo : Bool) (frequency blocksize total : Nat)
    (i : IterIn) : LoopOut :=
  if i.allocRet ≠ .ok then
    pause_path i.allocRet total
  else if i.pushRet ≠ .ok then
    pause_path i.pushRet (play_iter stereo frequency total i.played).2
  else if i.played < blocksize then
    ⟨(play_iter stereo frequency total i.played).2, true, false, true⟩
  else
    ⟨(play_iter stereo frequency total i.played).2, false, false, false⟩

/-- Number of EOS events pushed over a whole production session: the
task is re-invoked with the next iteration's call outcomes until it
pauses (or the input list of outcomes ends). -/
def play_session (stereo : Bool) (frequency blocksize : Nat) :
    Nat → List IterIn → Nat
  | _, [] => 0
  | total, i :: rest =>
    let o := play_loop stereo frequency blocksize total i
    (if o.eosPushed then 1 else 0) +
      (if o.paused then 0 else play_session stereo frequency blocksize o.total rest)

theorem play_loop_eos_imp_paused (stereo : Bool)
    (frequency blocksize total : Nat) (i : IterIn)
    (h : (play_loop stereo frequency blocksize total i).eosPushed = true) :
    (play_loop stereo frequency blocksize total i).paused = true := by
  revert h
  unfold play_loop pause_path
  split
  · split
    · simp
    · split <;> simp
  · split
    · split
      · simp
      · split <;> simp
    · split <;> simp

theorem play_session_le_one (stereo : Bool) (frequency blocksize : Nat) :
    ∀ (ins : List IterIn) (total : Nat),
      play_session stereo frequency blocksize total ins ≤ 1 := by
  intro ins
  induction ins with
  | nil => intro total; simp [play_session]
  | cons i rest ih =>
    intro total
    by_cases hp : (play_loop stereo frequency blocksize total i).paused = true
    · simp only [play_session, hp, if_true]
      split <;> simp
    · have he : (play_loop stereo frequency blocksize total i).eosPushed = false := by
        by_contra hcon
        exact hp (play_loop_eos_imp_paused stereo frequency blocksize total i
          (by simpa using hcon))
      simp only [play_session, he, Bool.false_eq_true, if_false, Nat.zero_add, hp]
      exact ih (play_loop stereo frequency blocksize total i).total

/-- C6: a production-loop invocation whose allocation and push succeed
and whose render is strictly shorter than the block size pushes exactly
one EOS event and pauses the task with no error posted (normal
completion); over a whole session — every allocation and push
succeeding, some render short — exactly one EOS is emitted, and no
session ever emits more than one. -/
theorem c6_eos_once (stereo : Bool) (frequency blocksize total : Nat)
    (i : IterIn) (ins : List IterIn) :
    (i.allocRet = .ok → i.pushRet = .ok → i.played < blocksize →
      play_loop stereo frequency blocksize total i =
        ⟨total + i.played, true, false, true⟩) ∧
    (play_session stereo frequency blocksize total ins ≤ 1) ∧
    ((∀ j, j ∈ ins → j.allocRet = .ok ∧ j.pushRet = .ok) →
      (∃ j, j ∈ ins ∧ j.played < blocksize) →
      play_session stereo frequency blocksize total ins = 1) := by
  refine ⟨?_, play_session_le_one stereo frequency blocksize ins total, ?_⟩
  · intro ha hp hshort
    simp [play_loop, ha, hp, hshort, play_iter]
  · clear i
    induction ins generalizing total with
    | nil =>
      intro _ hex
      obtain ⟨j, hj, _⟩ := hex
      simp at hj
    | cons i rest ih =>
      intro hflows hex
      have hi := hflows i (by simp)
      by_cases hshort : i.played < blocksize
      · have hstep : play_loop stereo frequency blocksize total i =
            ⟨total + i.played, true, false, true⟩ := by
          simp [play_loop, hi.1, hi.2, hshort, play_iter]
        simp [play_session, hstep]
      · have hstep : play_loop stereo frequency blocksize total i =
            ⟨total + i.played, false, false, false⟩ := by
          simp [play_loop, hi.1, hi.2, hshort, play_iter]
        have hex' : ∃ j, j ∈ rest ∧ j.played < blocksize := by
          obtain ⟨j, hj, hjs⟩ := hex
          rcases List.mem_cons.mp hj with hj0 | hjr
          · exact absurd (hj0 ▸ hjs) hshort
          · exact ⟨j, hjr, hjs⟩
        have hflows' : ∀ j, j ∈ rest → j.allocRet = .ok ∧ j.pushRet = .ok :=
          fun j hj => hflows j (List.mem_cons_of_mem i hj)
        simp [play_session, hstep, ih (total + i.played) hflows' hex']

/-- C6 witness: block size 8192, two full blocks then a short render of
100 bytes with all flows OK — the short iteration pushes one EOS and
pauses without error, and the session emits exactly one EOS. -/
theorem c6_eos_once_witness :
    play_loop true 48000 8192 16384 ⟨.ok, 100, .ok⟩ =
      ⟨16384 + 100, true, false, true⟩ ∧
    play_session true 48000 8192 0
      [⟨.ok, 8192, .ok⟩, ⟨.ok, 8192, .ok⟩, ⟨.ok, 100, .ok⟩] ≤ 1 ∧
    play_session true 48000 8192 0
      [⟨.ok, 8192, .ok⟩, ⟨.ok, 8192, .ok⟩, ⟨.ok, 100, .ok⟩] = 1 := by
  have h := c6_eos_once true 48000 8192 16384 ⟨.ok, 100, .ok⟩
    [⟨.ok, 8192, .ok⟩, ⟨.ok, 8192, .ok⟩, ⟨.ok, 100, .ok⟩]
  have h0 := c6_eos_once true 48000 8192 0 ⟨.ok, 100, .ok⟩
    [⟨.ok, 8192, .ok⟩, ⟨.ok, 8192, .ok⟩, ⟨.ok, 100, .ok⟩]
  refine ⟨h.1 rfl rfl (by decide), h0.2.1, h0.2.2 ?_ ?_⟩
  · intro j hj
    fin_cases hj <;> exact ⟨rfl, rfl⟩
  · exact ⟨⟨.ok, 100, .ok⟩, by simp, by decide⟩

/-- One fixated caps structure as the negotiator reads it: the `rate`
and `channels` integer fields, `none` when the field is absent (then
`gst_structure_get_int` leaves the local defaults 48000 / 1 in place,
lines 265–266 and 283–284). -/
structure CapsStructure where
  rate : Option Nat
  channels : Option Nat
deriving DecidableEq

/-- Embedding of `siddecfp_negotiate` (lines 259–307).  The downstream
boundary `gst_pad_get_allowed_caps` is modelled as the input: `none`
when the query yields nothing allowed (the source's `nothing_allowed`
failure path), otherwise the ordered list of candidate structures
already filtered by the pad template's fixed constraints.  On success
the first candidate's rate and channel count are extracted, with
defaults 48000 Hz / 1 channel for missing fields (an empty list keeps
both defaults, as `gst_caps_get_structure` then yields no structure). -/
def siddecfp_negotiate (allowed : Option (List CapsStructure)) :
    Option (Nat × Nat) :=
  match allowed with
  | none => none
  | some caps =>
    match caps.head? with
    | none => some (48000, 1)
    | some s => some (s.rate.getD 48000, s.channels.getD 1)

/-- Error classes posted by `start_play_tune`, one per error label of
the source (lines 424–452). -/
inductive ErrKind where
  | loadTuneError
  | residInitError
  | negotiateError
  | configError
  | engineLoadError
deriving DecidableEq

/-- Outcomes of the external calls `start_play_tune` makes, in source
order: the tune's validity flag after `read` (`tune->getStatus()`), the
tune's own diagnostic (`getInfo().statusString`), the builder
allocation, the negotiation input, the engine's `config` and `load`
return codes, the engine's error string, and the task-start result. -/
structure EngineEnv where
  tuneOk : Bool
  statusString : String
  rsOk : Bool
  allowedCaps : Option (List CapsStructure)
  configRet : Int
  engineError : String
  loadRet : Int
  taskStartOk : Bool
deriving DecidableEq

/-- Result of `start_play_tune`: the returned boolean, the structured
error if any with its message, whether `engine->config(...)` was ever
invoked, and whether the production-loop task was started. -/
structure PlayResult where
  res : Bool
  errKind : Option ErrKind
  errMsg : String
  configCalled : Bool
  taskStarted : Bool
deriving DecidableEq

/-- Embedding of `start_play_tune` (lines 386–452): read the
accumulated program into a tune and check its status; construct the
ReSIDfp builder; negotiate the output format; configure the engine;
select the sub-tune and load the tune into the engine; then push the
segment, reset the position and start the `play_loop` task.  Each
failure label carries the message the source formats. -/
def start_play_tune (tune_len : Nat) (env : EngineEnv) : PlayResult :=
  if env.tuneOk = false then
    { res := false, errKind := some .loadTuneError,
      errMsg := "Could not load tune into engine: " ++ env.statusString ++
        " (Size: " ++ toString tune_len ++ ")",
      configCalled := false, taskStarted := false }
  else if env.rsOk = false then
    { res := false, errKind := some .residInitError,
      errMsg := "Could not init residfp",
      configCalled := false, taskStarted := false }
  else if (siddecfp_negotiate env.allowedCaps).isNone then
    { res := false, errKind := some .negotiateError,
      errMsg := "Could not negotiate format",
      configCalled := false, taskStarted := false }
  else if env.configRet < 0 then
    { res := false, errKind := some .configError,
      errMsg := "Could not set engine config",
      configCalled := true, taskStarted := false }
  else if env.loadRet < 0 then
    { res := false, errKind := some .engineLoadError,
      errMsg := "Could not load tune into engine: " ++ env.engineError ++
        " (Size: " ++ toString tune_len ++ ")",
      configCalled := true, taskStarted := false }
  else
    { res := env.taskStartOk, errKind := none, errMsg := "",
      configCalled := true, taskStarted := true }

theorem string_append_assoc (a b c : String) : a ++ b ++ c = a ++ (b ++ c) := by
  cases a with
  | mk da =>
    cases b with
    | mk db =>
      cases c with
      | mk dc =>
        show String.mk (da ++ db ++ dc) = String.mk (da ++ (db ++ dc))
        rw [List.append_assoc]

/-- C7: negotiation fails (the spec's `NoFormat`) exactly when the
downstream allowed-caps query yields nothing; otherwise it takes the
first candidate of the downstream-advertised ordered list, extracting
its rate and channel count with defaults 48000 Hz / mono when
unspecified; and on a negotiation failure `start_play_tune` aborts with
the negotiation error before the engine configuration call and never
starts the production task. -/
theorem c7_negotiate (allowed : Option (List CapsStructure))
    (s : CapsStructure) (rest : List CapsStructure)
    (tune_len : Nat) (env : EngineEnv) :
    (siddecfp_negotiate allowed = none ↔ allowed = none) ∧
    (siddecfp_negotiate (some (s :: rest)) =
      some (s.rate.getD 48000, s.channels.getD 1)) ∧
    (siddecfp_negotiate (some []) = some (48000, 1)) ∧
    (env.tuneOk = true → env.rsOk = true → env.allowedCaps = none →
      (start_play_tune tune_len env).errKind = some .negotiateError ∧
      (start_play_tune tune_len env).configCalled = false ∧
      (start_play_tune tune_len env).taskStarted = false) := by
  refine ⟨?_, rfl, rfl, ?_⟩
  · cases allowed with
    | none => simp [siddecfp_negotiate]
    | some caps => cases caps <;> simp [siddecfp_negotiate]
  · intro htune hrs hcaps
    simp [start_play_tune, htune, hrs, hcaps, siddecfp_negotiate]

/-- C7 witness: a valid tune and builder but a `none` allowed-caps
query — negotiation fails, no engine configuration happens, no task is
started; a one-candidate list with only a rate picks that rate and
defaults to mono. -/
theorem c7_negotiate_witness :
    (siddecfp_negotiate none = none ↔ (none : Option (List CapsStructure)) = none) ∧
    (siddecfp_negotiate (some [⟨some 44100, none⟩]) = some (44100, 1)) ∧
    (siddecfp_negotiate (some []) = some (48000, 1)) ∧
    ((start_play_tune 7 ⟨true, "ok", true, none, 0, "", 0, true⟩).errKind =
        some .negotiateError ∧
      (start_play_tune 7 ⟨true, "ok", true, none, 0, "", 0, true⟩).configCalled =
        false ∧
      (start_play_tune 7 ⟨true, "ok", true, none, 0, "", 0, true⟩).taskStarted =
        false) := by
  have h := c7_negotiate none ⟨some 44100, none⟩ []
    7 ⟨true, "ok", true, none, 0, "", 0, true⟩
  exact ⟨h.1, h.2.1, h.2.2.1, h.2.2.2 rfl rfl rfl⟩

/-- C8: when the accumulated program fails the tune's validity check,
`start_play_tune` fails with the load-tune error, its message contains
both the format's own diagnostic string and the byte length of the
attempted load, and the production-loop task is never started. -/
theorem c8_load_tune_error (tune_len : Nat) (env : EngineEnv)
    (h : env.tuneOk = false) :
    (start_play_tune tune_len env).res = false ∧
    (start_play_tune tune_len env).errKind = some .loadTuneError ∧
    (∃ p q, (start_play_tune tune_len env).errMsg =
      p ++ env.statusString ++ q) ∧
    (∃ p q, (start_play_tune tune_len env).errMsg =
      p ++ toString tune_len ++ q) ∧
    (start_play_tune tune_len env).taskStarted = false := by
  refine ⟨?_, ?_, ?_, ?_, ?_⟩
  · simp [start_play_tune, h]
  · simp [start_play_tune, h]
  · refine ⟨"Could not load tune into engine: ",
      " (Size: " ++ toString tune_len ++ ")", ?_⟩
    simp only [start_play_tune, h, if_true, string_append_assoc]
  · refine ⟨"Could not load tune into engine: " ++ env.statusString ++
      " (Size: ", ")", ?_⟩
    simp only [start_play_tune, h, if_true, string_append_assoc]
  · simp [start_play_tune, h]

/-- C8 witness: an invalid 123-byte program with diagnostic
"SIDTUNE ERROR" yields the load-tune error, its message carrying the
diagnostic and the length, and no task start. -/
theorem c8_load_tune_error_witness :
    (start_play_tune 123 ⟨false, "SIDTUNE ERROR", true, some [], 0, "", 0, true⟩).res =
      false ∧
    (start_play_tune 123 ⟨false, "SIDTUNE ERROR", true, some [], 0, "", 0, true⟩).errKind =
      some .loadTuneError ∧
    (∃ p q, (start_play_tune 123
      ⟨false, "SIDTUNE ERROR", true, some [], 0, "", 0, true⟩).errMsg =
        p ++ "SIDTUNE ERROR" ++ q) ∧
    (∃ p q, (start_play_tune 123
      ⟨false, "SIDTUNE ERROR", true, some [], 0, "", 0, true⟩).errMsg =
        p ++ toString 123 ++ q) ∧
    (start_play_tune 123
      ⟨false, "SIDTUNE ERROR", true, some [], 0, "", 0, true⟩).taskStarted =
      false :=
  c8_load_tune_error 123 ⟨false, "SIDTUNE ERROR", true, some [], 0, "", 0, true⟩ rfl

/-- DEFAULT_TUNE, line 52. -/
def DEFAULT_TUNE : Int := 0

/-- DEFAULT_BLOCKSIZE = 8*1024, line 58. -/
def DEFAULT_BLOCKSIZE : Nat := 8 * 1024

/-- MIN_BLOCKSIZE = 1*1024, line 59. -/
def MIN_BLOCKSIZE : Nat := 1 * 1024

/-- MAX_BLOCKSIZE = 64*1024, line 60. -/
def MAX_BLOCKSIZE : Nat := 64 * 1024

/-- The properties the element's class installs plus PROP_MEMORY (in
the property enum and the switch statements, but never installed),
lines 62–74 and 155–182. -/
inductive GProp where
  | tune
  | clock
  | memory
  | filter
  | measured_volume
  | mos8580
  | force_speed
  | blocksize
  | metadata
deriving DecidableEq

/-- Typed GValue payloads the element's property handlers exchange. -/
inductive GVal where
  | vInt (i : Int)
  | vEnum (i : Int)
  | vBool (b : Bool)
  | vULong (n : Nat)
  | vBoxed (caps : Option (List CapsStructure))
deriving DecidableEq

/-- g_value_get_int on a typed payload. -/
def g_value_get_int : GVal → Int
  | .vInt i => i
  | _ => 0

/-- g_value_get_ulong on a typed payload. -/
def g_value_get_ulong : GVal → Nat
  | .vULong n => n
  | _ => 0

/-- The element state the property handlers touch: `tune_number` and
`blocksize` (header lines 65 and 73).  Every other advertised option's
store is commented out in the source, so no further field exists to
hold one. -/
structure PropState where
  tune_number : Int
  blocksize : Nat
deriving DecidableEq

/-- Element state after `gst_siddecfp_init` (lines 217–220):
tune_number 0, blocksize DEFAULT_BLOCKSIZE. -/
def initPropState : PropState :=
  { tune_number := DEFAULT_TUNE, blocksize := DEFAULT_BLOCKSIZE }

/-- Embedding of `gst_siddecfp_set_property` (lines 630–666): only
PROP_TUNE and PROP_BLOCKSIZE store their value; the clock, memory,
filter, measured-volume, mos8580 and force-speed cases are accepted but
their stores are commented out, so the state is unchanged. -/
def gst_siddecfp_set_property (s : PropState) (p : GProp) (v : GVal) :
    PropState :=
  match p with
  | .tune => { s with tune_number := g_value_get_int v }
  | .blocksize => { s with blocksize := g_value_get_ulong v }
  | _ => s

/-- Embedding of `gst_siddecfp_get_property` (lines 668–706): `none`
models a case whose body is commented out, which leaves the caller's
GValue unset; PROP_METADATA always sets the boxed value to NULL
(line 700). -/
def gst_siddecfp_get_property (s : PropState) (p : GProp) : Option GVal :=
  match p with
  | .tune => some (.vInt s.tune_number)
  | .blocksize => some (.vULong s.blocksize)
  | .metadata => some (.vBoxed none)
  | _ => none

/-- C9 counterexample: setting the clock property and reading it back
does not return the value that was set — the setter's store is commented
out and the getter yields nothing, refuting the claim that every
advertised option reads back the value that was set. -/
theorem c9_counterexample :
    ¬ (gst_siddecfp_get_property
        (gst_siddecfp_set_property initPropState .clock (.vEnum 1)) .clock =
      some (.vEnum 1)) := by
  decide

/-- C9 (amended): the sub-tune index and the block size (range
[MIN_BLOCKSIZE, MAX_BLOCKSIZE] = [1024, 65536], default
DEFAULT_BLOCKSIZE = 8192) store the value set and read back exactly
that value; the five additional advertised options (clock, filter,
measured-volume, mos8580, force-speed) are accepted without error but
not stored — setting them leaves the element state unchanged and
reading them yields no value. -/
theorem c9_property_roundtrip (s : PropState) (i : Int) (n : Nat)
    (v : GVal) (p : GProp)
    (hp : p = .clock ∨ p = .filter ∨ p = .measured_volume ∨
      p = .mos8580 ∨ p = .force_speed) :
    (gst_siddecfp_get_property
        (gst_siddecfp_set_property s .tune (.vInt i)) .tune =
      some (.vInt i)) ∧
    (gst_siddecfp_get_property
        (gst_siddecfp_set_property s .blocksize (.vULong n)) .blocksize =
      some (.vULong n)) ∧
    (gst_siddecfp_set_property s p v = s ∧
      gst_siddecfp_get_property s p = none) ∧
    DEFAULT_BLOCKSIZE = 8192 ∧ MIN_BLOCKSIZE = 1024 ∧
    MAX_BLOCKSIZE = 65536 ∧ DEFAULT_TUNE = 0 ∧
    initPropState.blocksize = DEFAULT_BLOCKSIZE := by
  refine ⟨rfl, rfl, ?_, rfl, rfl, rfl, rfl, rfl⟩
  rcases hp with h | h | h | h | h <;> subst h <;>
    exact ⟨rfl, rfl⟩

/-- C9 witness: from the initial state, tune 7 and blocksize 4096 read
back exactly; the clock property accepts an enum value but stores
nothing and reads back nothing. -/
theorem c9_property_roundtrip_witness :
    (gst_siddecfp_get_property
        (gst_siddecfp_set_property initPropState .tune (.vInt 7)) .tune =
      some (.vInt 7)) ∧
    (gst_siddecfp_get_property
        (gst_siddecfp_set_property initPropState .blocksize (.vULong 4096))
        .blocksize =
      some (.vULong 4096)) ∧
    (gst_siddecfp_set_property initPropState .clock (.vEnum 1) =
        initPropState ∧
      gst_siddecfp_get_property initPropState .clock = none) ∧
    DEFAULT_BLOCKSIZE = 8192 ∧ MIN_BLOCKSIZE = 1024 ∧
    MAX_BLOCKSIZE = 65536 ∧ DEFAULT_TUNE = 0 ∧
    initPropState.blocksize = DEFAULT_BLOCKSIZE :=
  c9_property_roundtrip initPropState 7 4096 (.vEnum 1) .clock (Or.inl rfl)

/-- C10: reading the read-only metadata property returns the boxed NULL
value in every element state — the getter passes NULL unconditionally,
whatever has been loaded or announced. -/
theorem c10_metadata_null (s : PropState) :
    gst_siddecfp_get_property s .metadata = some (.vBoxed none) := by
  rfl

end GstSidDecFp
